import Mathlib

/-!
Verification of the dedebugger process-control engine.

The Go sources (package `debugger`) are embedded shallowly:

* `Debugger` mirrors the `Debugger` struct of `def.go`.
* Machine integers are `Nat` with explicit `% 2^64` where the Go code uses
  `uint64` arithmetic (`add64`, `sub64`).
* The tracee's address space is a function `Nat → Nat` (one byte per address)
  together with a validity predicate modelling which addresses `ptrace` can
  access; `ptracePeekData` / `ptracePokeData` return `Except` accordingly.
* `ReplaceCode`, `SetBreak`, `InputOrContinue`, `OutputStack` and the wait
  loop of `RunTarget` are translated function by function.  Operator input is
  a list of strings (one per `scanner.Scan()`), printed output is a list of
  `Msg` values (one per `fmt.Printf`), and Go panics (including nil
  dereferences and slice-bounds violations) are explicit outcomes.
-/

namespace Dedebugger

/-- The modulus of Go's `uint64` arithmetic. -/
def W : Nat := 2 ^ 64

theorem W_val : W = 18446744073709551616 := by norm_num [W]

/-- Go `uint64` addition (wraps modulo `2^64`). -/
def add64 (a b : Nat) : Nat := (a + b) % W

/-- Go `uint64` subtraction (wraps modulo `2^64`). -/
def sub64 (a b : Nat) : Nat := (a + (W - b % W)) % W

/-- A resolved symbol, as produced by `debug/gosym` (`*gosym.Func`):
only the name and entry address are consumed by the core. -/
structure GoFunc where
  name : String
  entry : Nat
deriving DecidableEq, Repr

/-- The symbol-resolution interface the core consumes from `gosym.Table`:
`PCToLine`, `LineToPC` (whose error case is `none`, with the returned pc
being 0 in Go on error) and `LookupFunc`. -/
structure SymTable where
  pcToLine : Nat → String × Int × Option GoFunc
  lineToPC : String → Int → Option Nat
  lookupFunc : String → Option GoFunc

/-- One line of output, one constructor per `fmt.Printf` in the source. -/
inductive Msg where
  | prompt
  | linePrompt (file : String)
  | unexpectedInput (s : String)
  | cantFind (file : String) (line : Int)
  | strangeFrame (sp bp : Nat)
  | calledBy (name : String) (line : Int)
  | blank
  | stoppedAt (name : String) (line : Int) (file : String)
deriving DecidableEq, Repr

/-- The `Debugger` struct of `def.go` (register/wait-status fields are kept
in the loop state, since they are only written at stop events). -/
structure Debugger where
  targetFile : String
  line : Int
  pc : Nat
  fn : Option GoFunc
  symTable : SymTable
  originalCode : List Nat
  breakpointSet : Bool
  interruptCode : List Nat

/-- The traced process's address space: a byte per address, plus the set of
addresses the ptrace channel can reach (peek/poke fail outside of it). -/
structure Tracee where
  mem : Nat → Nat
  valid : Nat → Bool

/-- Read `len` bytes starting at `addr`. -/
def peekBytes (mem : Nat → Nat) (addr len : Nat) : List Nat :=
  (List.range len).map fun i => mem (addr + i)

/-- Write the bytes `code` starting at `addr`. -/
def pokeBytes (mem : Nat → Nat) (addr : Nat) (code : List Nat) : Nat → Nat :=
  fun a => if addr ≤ a ∧ a - addr < code.length then code.getD (a - addr) 0 else mem a

/-- Whether the whole range `[addr, addr+len)` is accessible to ptrace. -/
def rangeValid (t : Tracee) (addr len : Nat) : Bool :=
  (List.range len).all fun i => t.valid (addr + i)

/-- `syscall.PtracePeekData`: fails when the range is inaccessible. -/
def ptracePeekData (t : Tracee) (addr len : Nat) : Except String (List Nat) :=
  if rangeValid t addr len then .ok (peekBytes t.mem addr len) else .error "peek"

/-- `syscall.PtracePokeData`: fails when the range is inaccessible. -/
def ptracePokeData (t : Tracee) (addr : Nat) (code : List Nat) : Except String Tracee :=
  if rangeValid t addr code.length then .ok { t with mem := pokeBytes t.mem addr code }
  else .error "poke"

/-- `ReplaceCode` from the source.  `original := make([]byte, len(code))` is
zero-initialized; the results of both ptrace syscalls are discarded in the Go
code, so a failed peek leaves the zeroed buffer as `original` and a failed
poke leaves memory unchanged — in neither case does the function fail. -/
def ReplaceCode (t : Tracee) (address : Nat) (code : List Nat) : List Nat × Tracee :=
  let original := match ptracePeekData t address code.length with
    | .ok bs => bs
    | .error _ => List.replicate code.length 0
  let t' := match ptracePokeData t address code with
    | .ok t2 => t2
    | .error _ => t
  (original, t')

/-- Result of `SetBreak`: the Go function returns `(bool, []byte)` and
mutates `d.PC` (and, via `ReplaceCode`, tracee memory); the mutations are
made explicit here. -/
structure SetBreakResult where
  ok : Bool
  saved : List Nat
  d : Debugger
  t : Tracee
  msgs : List Msg

/-- `SetBreak`: resolves `(TargetFile, Line)`; on error (`LineToPC` returns
pc 0 and an error) it reports and touches no memory; on success it installs
`InterruptCode` at the resolved pc via `ReplaceCode`. -/
def SetBreak (d : Debugger) (t : Tracee) : SetBreakResult :=
  match d.symTable.lineToPC d.targetFile d.line with
  | none => ⟨false, [], { d with pc := 0 }, t, [Msg.cantFind d.targetFile d.line]⟩
  | some pc =>
    let d' := { d with pc := pc }
    let rc := ReplaceCode t pc d'.interruptCode
    ⟨true, rc.1, d', rc.2, []⟩

/-- Sign and digit characters of a decimal literal, for the `strconv.Atoi`
model. -/
def intDigits (s : String) : Bool × List Char :=
  match s.toList with
  | '+' :: ds => (false, ds)
  | '-' :: ds => (true, ds)
  | cs => (false, cs)

/-- Whether `s` is a syntactically valid decimal integer for `strconv.Atoi`. -/
def isIntSyntax (s : String) : Bool :=
  !(intDigits s).2.isEmpty && (intDigits s).2.all Char.isDigit

/-- Numeric value of a digit list. -/
def digitsVal (l : List Char) : Nat :=
  l.foldl (fun acc c => acc * 10 + (c.toNat - 48)) 0

/-- Model of Go `strconv.Atoi` on a 64-bit platform: returns (value, ok).
On a syntax error the value is 0; on a range error the value saturates at
the int64 bounds (and ok is false). -/
def goAtoi (s : String) : Int × Bool :=
  let nd := intDigits s
  if isIntSyntax s then
    let v : Nat := digitsVal nd.2
    if nd.1 then
      if v ≤ 2 ^ 63 then (-(v : Int), true) else (-(2 ^ 63 : Int), false)
    else
      if v ≤ 2 ^ 63 - 1 then ((v : Int), true) else ((2 ^ 63 - 1 : Int), false)
  else (0, false)

/-- ASCII upper-casing of one character, for the `strings.ToUpper` model. -/
def asciiUpper (c : Char) : Char :=
  if 'a' ≤ c ∧ c ≤ 'z' then Char.ofNat (c.toNat - 32) else c

/-- Model of Go `strings.ToUpper` (the inputs compared against are the ASCII
menu letters `C`/`S`/`B`/`Q`, so ASCII case-mapping is the relevant part). -/
def goToUpper (s : String) : String := String.mk (s.toList.map asciiUpper)

/-- Outcome of `InputOrContinue`: the returned continue/step flag together
with the mutated debugger and tracee; `quit` models `os.Exit(0)`; `blocked`
models the scanner having no further input to yield. -/
inductive IOCResult where
  | quit (out : List Msg)
  | ret (cont : Bool) (d : Debugger) (t : Tracee) (out : List Msg)
  | blocked (out : List Msg)

/-- `InputOrContinue`'s scanner loop.  `sub` is the flag set after a `B`
command; in the default branch with `sub` set, the `strconv.Atoi` error is
discarded (`d.Line, _ = strconv.Atoi(input)`) and `SetBreak` is invoked with
`d.BreakpointSet, d.OriginalCode = d.SetBreak(pid)` before returning true. -/
def InputOrContinue (d : Debugger) (t : Tracee) (sub : Bool) (inputs : List String)
    (out : List Msg) : IOCResult :=
  match inputs with
  | [] => .blocked out
  | input :: rest =>
    if goToUpper input = "C" then .ret true d t out
    else if goToUpper input = "S" then .ret false d t out
    else if goToUpper input = "B" then
      InputOrContinue d t true rest (out ++ [Msg.linePrompt d.targetFile])
    else if goToUpper input = "Q" then .quit out
    else if sub then
      let d1 := { d with line := (goAtoi input).1 }
      let r := SetBreak d1 t
      .ret true { r.d with breakpointSet := r.ok, originalCode := r.saved } r.t (out ++ r.msgs)
    else
      InputOrContinue d t sub rest (out ++ [Msg.unexpectedInput input, Msg.prompt])

/-- Entry into `InputOrContinue`: the menu prompt is printed before the
scanner loop starts. -/
def InputOrContinueRun (d : Debugger) (t : Tracee) (inputs : List String) : IOCResult :=
  InputOrContinue d t false inputs [Msg.prompt]

/-- `binary.LittleEndian.Uint64(b[i:i+8])` (callers check `i+8 ≤ b.length`,
since the Go slice panics otherwise). -/
def le64 (b : List Nat) (i : Nat) : Nat :=
  (List.range 8).foldr (fun k acc => acc * 256 + b.getD (i + k) 0) 0

/-- The inner scan of `OutputStack`:
`for i = 8; sp+i <= bp; i += 8 { content := le64(b[i:i+8]); if sp+i == bp { nextbp = content } }`.
Returns the final `(i, nextbp)`; `none` models the Go slice-bounds panic of
`b[i:i+8]` when `i+8 > len(b)` while the loop condition still holds.  The
fuel argument is structural book-keeping only: every continuing step needs
`i + 8 ≤ b.length`, so starting from `i = 8` the recursion depth is at most
`b.length / 8 + 1` and the fuel `b.length + 1` passed by `scanLoop` can
never run out before the loop exits or panics. -/
def scanLoopF (sp bpv : Nat) (b : List Nat) : Nat → Nat → Nat → Option (Nat × Nat)
  | 0, _, _ => none
  | fuel + 1, i, nextbp =>
    if add64 sp i ≤ bpv then
      if i + 8 ≤ b.length then
        scanLoopF sp bpv b fuel (i + 8) (if add64 sp i = bpv then le64 b i else nextbp)
      else none
    else some (i, nextbp)

/-- The inner scan, entered at `i = 8` with the `nextbp` value carried over
from the previous outer iteration (`var nextbp uint64` is declared outside
the outer loop). -/
def scanLoop (sp bpv : Nat) (b : List Nat) (nextbp : Nat) : Option (Nat × Nat) :=
  scanLoopF sp bpv b (b.length + 1) 8 nextbp

/-- The frame-size computation at the top of each `OutputStack` iteration:
`frameSize := bp - sp + 8` in `uint64`; if `frameSize > 1000 || bp == 0`,
print the diagnostic with the observed values, then `frameSize = 32` and
`bp = sp + frameSize - 8`.  Returns (frameSize, bp, printed messages). -/
def frameAdjust (sp bpv : Nat) : Nat × Nat × List Msg :=
  let frameSize := add64 (sub64 bpv sp) 8
  if 1000 < frameSize ∨ bpv = 0 then
    (32, sub64 (add64 sp 32) 8, [Msg.strangeFrame sp bpv])
  else
    (frameSize, bpv, [])

/-- Result of one iteration of `OutputStack`'s outer loop: a Go panic
(failed `PtracePeekData`, slice out of range, or nil `d.Fn` dereference at
the sentinel check), the `break` on the sentinel, or the advance to the next
frame (`sp = sp + i; bp = nextbp`). -/
inductive WalkStep where
  | panicked (msgs : List Msg)
  | broke (fn : Option GoFunc) (msgs : List Msg)
  | next (fn : Option GoFunc) (sp bpv nextbp : Nat) (msgs : List Msg)
deriving DecidableEq, Repr

/-- One iteration of `OutputStack`'s outer loop, translated statement by
statement from the source. -/
def outputStackIter (st : SymTable) (t : Tracee) (fn : Option GoFunc)
    (sp bpv nextbp : Nat) : WalkStep :=
  let fa := frameAdjust sp bpv
  let frameSize := fa.1
  let bpv := fa.2.1
  let msgs := fa.2.2
  match ptracePeekData t sp frameSize with
  | .error _ => .panicked msgs
  | .ok b =>
    if 8 ≤ b.length then
      let pcl := st.pcToLine (le64 b 0)
      let fm : Option GoFunc × List Msg :=
        match pcl.2.2 with
        | some nextfn => (some nextfn, msgs ++ [Msg.calledBy nextfn.name pcl.2.1])
        | none => (fn, msgs)
      match scanLoop sp bpv b nextbp with
      | none => .panicked fm.2
      | some (i, nextbp1) =>
        match fm.1 with
        | none => .panicked fm.2
        | some f =>
          if f.name = "main.main" ∨ f.name = "runtime.main" then .broke (some f) fm.2
          else .next (some f) (add64 sp i) nextbp1 nextbp1 fm.2
    else .panicked msgs

/-- The outer loop of `OutputStack`, driven by fuel.  `none` means the loop
is still running after `fuel` iterations (so `∀ fuel, … = none` is
divergence); `some (.error ())` is a Go panic; `some (.ok (fn, msgs))` is
normal termination at the sentinel, returning the final `d.Fn` and the
accumulated output. -/
def outputStackLoop (st : SymTable) (t : Tracee) :
    Nat → Option GoFunc → Nat → Nat → Nat → List Msg →
    Option (Except Unit (Option GoFunc × List Msg))
  | 0, _, _, _, _, _ => none
  | fuel + 1, fn, sp, bpv, nextbp, acc =>
    match outputStackIter st t fn sp bpv nextbp with
    | .panicked _ => some (.error ())
    | .broke fn1 msgs => some (.ok (fn1, acc ++ msgs))
    | .next fn1 sp1 bpv1 nextbp1 msgs => outputStackLoop st t fuel fn1 sp1 bpv1 nextbp1 (acc ++ msgs)

/-- `OutputStack(pid, ip, sp, bp)`: seeds `d.Fn` from `PCToLine(ip)`, walks
the frames, and prints the final blank line.  The tracee is only peeked,
never written. -/
def OutputStack (fuel : Nat) (d : Debugger) (t : Tracee) (ip sp bpv : Nat) :
    Option (Except Unit (Debugger × List Msg)) :=
  match outputStackLoop d.symTable t fuel ((d.symTable.pcToLine ip).2.2) sp bpv 0 [] with
  | none => none
  | some (.error _) => some (.error ())
  | some (.ok (fn, msgs)) => some (.ok ({ d with fn := fn }, msgs ++ [Msg.blank]))

/-- Messages printed by one iteration of the outer walk loop (also those
printed before a panic aborts the iteration). -/
def iterMsgs : WalkStep → List Msg
  | .panicked m => m
  | .broke _ m => m
  | .next _ _ _ _ m => m

/-- Whether an `OutputStack` run finished normally (no panic, enough fuel). -/
def walkOk : Option (Except Unit (Debugger × List Msg)) → Bool
  | some (.ok _) => true
  | _ => false

/-- `syscall.SIGTRAP`. -/
def SIGTRAP : Nat := 5

/-- `syscall.PTRACE_EVENT_CLONE` (the value of `Ws.TrapCause()` for a
thread-creation notification). -/
def PTRACE_EVENT_CLONE : Int := 3

/-- The register snapshot consumed by the loop (`Rip`, `Rsp`, `Rbp`). -/
structure Regs where
  rip : Nat
  rsp : Nat
  rbp : Nat

/-- A classified `Wait4` result: an exit (of the main pid or of a secondary
tracee) or a stop with its signal and `TrapCause()`. -/
inductive WaitEv where
  | exited (isMainPid : Bool)
  | stopped (stopSignal : Nat) (trapCause : Int)

/-- One wait event together with the environment data consumed if the stop
is handled: the stopped tracee's registers and the operator's input lines. -/
structure Event where
  ev : WaitEv
  regs : Regs
  inputs : List String

/-- Control-loop phase.  `running` is the wait loop; `exitedPhase` is the
loop's `break` on the main pid's exit; `quitted` is `os.Exit(0)`; `aborted`
is any Go panic (from `must`, a nil dereference, or the stack walker);
`hung` marks a stack walk that did not finish within the step's fuel;
`blockedOnInput` marks the scanner running out of modelled input. -/
inductive Phase where
  | running
  | exitedPhase
  | quitted
  | aborted
  | hung
  | blockedOnInput
deriving DecidableEq, Repr

/-- The whole session state threaded through the wait loop: the `Debugger`
struct, the tracee's address space, the loop phase, whether the last resume
was `PtraceCont` (true) or `PtraceSingleStep` (false), and everything
printed so far. -/
structure LoopState where
  d : Debugger
  t : Tracee
  phase : Phase
  lastResume : Bool
  out : List Msg

/-- One iteration of `RunTarget`'s wait loop, from the source:
exits of the main pid break the loop, exits of secondary tracees are
ignored; a stop with `SIGTRAP` whose trap cause is not `PTRACE_EVENT_CLONE`
is a genuine trap (read registers, print the stop line — panicking if the
resolved function is nil — walk the stack, restore the breakpoint if one is
set, prompt, resume); every other stop is resumed with `PtraceCont`
immediately. -/
def loopStep (fuel : Nat) (s : LoopState) (e : Event) : LoopState :=
  match s.phase with
  | .running =>
    match e.ev with
    | .exited isMain => if isMain then { s with phase := .exitedPhase } else s
    | .stopped sig cause =>
      if sig = SIGTRAP ∧ cause ≠ PTRACE_EVENT_CLONE then
        let pcl := s.d.symTable.pcToLine e.regs.rip
        match pcl.2.2 with
        | none => { s with phase := .aborted }
        | some f =>
          let out1 := s.out ++ [Msg.stoppedAt f.name pcl.2.1 pcl.1]
          match OutputStack fuel s.d s.t e.regs.rip e.regs.rsp e.regs.rbp with
          | none => { s with phase := .hung, out := out1 }
          | some (.error _) => { s with phase := .aborted, out := out1 }
          | some (.ok (d1, msgs)) =>
            let out2 := out1 ++ msgs
            let dt : Debugger × Tracee :=
              if d1.breakpointSet then
                ({ d1 with breakpointSet := false }, (ReplaceCode s.t d1.pc d1.originalCode).2)
              else (d1, s.t)
            match InputOrContinue dt.1 dt.2 false e.inputs [Msg.prompt] with
            | .quit o => { d := dt.1, t := dt.2, phase := .quitted, lastResume := s.lastResume,
                           out := out2 ++ o }
            | .blocked o => { d := dt.1, t := dt.2, phase := .blockedOnInput,
                              lastResume := s.lastResume, out := out2 ++ o }
            | .ret c d3 t3 o => { d := d3, t := t3, phase := .running, lastResume := c,
                                  out := out2 ++ o }
      else
        { s with lastResume := true }
  | _ => s

/-- The setup performed by `Run` before `RunTarget`: look up `main.main`
(nil dereference — `none` here — if absent) and seed `TargetFile`, `Line`
and `Fn` from `PCToLine` of its entry; `NewDebugger` provides
`BreakpointSet = false` and `InterruptCode = []byte{0xCC}`. -/
def RunSetup (st : SymTable) : Option Debugger :=
  match st.lookupFunc "main.main" with
  | none => none
  | some f =>
    let pcl := st.pcToLine f.entry
    some { targetFile := pcl.1, line := pcl.2.1, pc := 0, fn := pcl.2.2,
           symTable := st, originalCode := [], breakpointSet := false,
           interruptCode := [0xCC] }

/-- The start of `RunTarget`'s session: the first `InputOrContinue` (before
the wait loop) decides the initial resume. -/
def startSession (d : Debugger) (t : Tracee) (inputs : List String) : LoopState :=
  match InputOrContinueRun d t inputs with
  | .quit o => { d := d, t := t, phase := .quitted, lastResume := true, out := o }
  | .blocked o => { d := d, t := t, phase := .blockedOnInput, lastResume := true, out := o }
  | .ret c d' t' o => { d := d', t := t', phase := .running, lastResume := c, out := o }

/-- Session states reachable by the control loop from a fresh target whose
address space is `t0`. -/
inductive Reachable (st : SymTable) (t0 : Tracee) : LoopState → Prop where
  | init : ∀ d inputs, RunSetup st = some d → Reachable st t0 (startSession d t0 inputs)
  | step : ∀ s e fuel, Reachable st t0 s → Reachable st t0 (loopStep fuel s e)

/-! ### Helper lemmas about the primitives -/

theorem add64_eq_of_lt {a b : Nat} (h : a + b < W) : add64 a b = a + b :=
  Nat.mod_eq_of_lt h

theorem sub64_eq_of_le {a b : Nat} (hb : b ≤ a) (ha : a < W) : sub64 a b = a - b := by
  simp only [sub64, W_val] at *
  omega

theorem range_one_eq : List.range 1 = [0] := rfl

theorem peekBytes_one (m : Nat → Nat) (a : Nat) : peekBytes m a 1 = [m a] := by
  simp [peekBytes, range_one_eq]

theorem rangeValid_one (t : Tracee) (a : Nat) : rangeValid t a 1 = t.valid a := by
  simp [rangeValid, range_one_eq]

theorem pokeBytes_single (m : Nat → Nat) (a c b : Nat) :
    pokeBytes m a [c] b = if b = a then c else m b := by
  unfold pokeBytes
  by_cases h : b = a
  · subst h
    rw [if_pos ⟨Nat.le_refl b, by simp⟩, if_pos rfl]
    simp
  · rw [if_neg, if_neg h]
    simp only [List.length_cons, List.length_nil]
    omega

theorem ReplaceCode_valid (t : Tracee) (a : Nat) (code : List Nat)
    (h : rangeValid t a code.length = true) :
    ReplaceCode t a code =
      (peekBytes t.mem a code.length, { t with mem := pokeBytes t.mem a code }) := by
  unfold ReplaceCode ptracePeekData ptracePokeData
  rw [if_pos h, if_pos h]

theorem ReplaceCode_invalid (t : Tracee) (a : Nat) (code : List Nat)
    (h : rangeValid t a code.length = false) :
    ReplaceCode t a code = (List.replicate code.length 0, t) := by
  unfold ReplaceCode ptracePeekData ptracePokeData
  rw [if_neg (by simp [h]), if_neg (by simp [h])]

theorem SetBreak_none (d : Debugger) (t : Tracee)
    (h : d.symTable.lineToPC d.targetFile d.line = none) :
    SetBreak d t = ⟨false, [], { d with pc := 0 }, t, [Msg.cantFind d.targetFile d.line]⟩ := by
  unfold SetBreak
  rw [h]

theorem SetBreak_some (d : Debugger) (t : Tracee) (pc : Nat)
    (h : d.symTable.lineToPC d.targetFile d.line = some pc) :
    SetBreak d t = ⟨true, (ReplaceCode t pc d.interruptCode).1, { d with pc := pc },
      (ReplaceCode t pc d.interruptCode).2, []⟩ := by
  unfold SetBreak
  rw [h]

/-- Unfolding of `InputOrContinue` for an input that falls through the menu
cases to the default branch with `sub` set: the `Atoi` error is discarded
and `SetBreak` runs. -/
theorem IOC_default_sub (d : Debugger) (t : Tracee) (input : String) (rest : List String)
    (out : List Msg)
    (h1 : goToUpper input ≠ "C") (h2 : goToUpper input ≠ "S")
    (h3 : goToUpper input ≠ "B") (h4 : goToUpper input ≠ "Q") :
    InputOrContinue d t true (input :: rest) out =
      .ret true
        { (SetBreak { d with line := (goAtoi input).1 } t).d with
          breakpointSet := (SetBreak { d with line := (goAtoi input).1 } t).ok,
          originalCode := (SetBreak { d with line := (goAtoi input).1 } t).saved }
        (SetBreak { d with line := (goAtoi input).1 } t).t
        (out ++ (SetBreak { d with line := (goAtoi input).1 } t).msgs) := by
  unfold InputOrContinue
  rw [if_neg h1, if_neg h2, if_neg h3, if_neg h4, if_pos rfl]

/-! ### The single-trap session invariant -/

/-- Invariant tying a debugger/tracee pair to the untouched program image
`t0`: the interrupt code is the single trap byte `0xCC`, address validity
never changes, memory equals the original image whenever no breakpoint is
set, and with a breakpoint set memory differs from the image at most at
`d.pc` (where the trap byte sits if the install poke could reach it, and
nothing changed if it could not). -/
def sessInv (t0 : Tracee) (d : Debugger) (t : Tracee) : Prop :=
  d.interruptCode = [0xCC] ∧ t.valid = t0.valid ∧
  (d.breakpointSet = false → t.mem = t0.mem) ∧
  (d.breakpointSet = true →
    (∀ a, a ≠ d.pc → t.mem a = t0.mem a) ∧
    (t0.valid d.pc = true → t.mem d.pc = 0xCC ∧ d.originalCode = [t0.mem d.pc]) ∧
    (t0.valid d.pc = false → t.mem d.pc = t0.mem d.pc ∧ d.originalCode = [0]))

/-- `sessInv` on the result of an `InputOrContinue` call (trivial for the
quit/blocked outcomes, which never resume the tracee). -/
def IOCInv (t0 : Tracee) : IOCResult → Prop
  | .ret _ d t _ => sessInv t0 d t
  | _ => True

theorem sessInv_of_clean (t0 : Tracee) (d : Debugger) (t : Tracee)
    (hI : d.interruptCode = [0xCC]) (hbf : d.breakpointSet = false)
    (hv : t.valid = t0.valid) (hm : t.mem = t0.mem) : sessInv t0 d t := by
  refine ⟨hI, hv, fun _ => hm, fun hbt => ?_⟩
  rw [hbf] at hbt
  exact absurd hbt (by simp)

/-- `SetBreak` (with the returned flag and saved bytes written back, as the
caller does) establishes the invariant from a clean state. -/
theorem setBreak_inv (t0 : Tracee) (d : Debugger) (t : Tracee)
    (hI : d.interruptCode = [0xCC]) (hv : t.valid = t0.valid) (hm : t.mem = t0.mem) :
    sessInv t0
      { (SetBreak d t).d with
        breakpointSet := (SetBreak d t).ok
        originalCode := (SetBreak d t).saved }
      (SetBreak d t).t := by
  cases hlp : d.symTable.lineToPC d.targetFile d.line with
  | none =>
    rw [SetBreak_none d t hlp]
    exact sessInv_of_clean t0 _ _ hI rfl hv hm
  | some pc =>
    rw [SetBreak_some d t pc hlp, hI]
    have hone : ([0xCC] : List Nat).length = 1 := rfl
    cases hrv : rangeValid t pc 1 with
    | true =>
      rw [ReplaceCode_valid t pc [0xCC] (by rw [hone]; exact hrv)]
      dsimp only [sessInv]
      refine ⟨rfl, hv, fun hbf => absurd hbf (by simp), fun _ => ⟨?_, ?_, ?_⟩⟩
      · intro a ha
        rw [pokeBytes_single, if_neg ha, hm]
      · intro _
        constructor
        · rw [pokeBytes_single, if_pos rfl]
        · rw [hone, peekBytes_one, hm]
      · intro hbad
        rw [rangeValid_one, hv, hbad] at hrv
        exact absurd hrv (by simp)
    | false =>
      rw [ReplaceCode_invalid t pc [0xCC] (by rw [hone]; exact hrv)]
      dsimp only [sessInv]
      refine ⟨rfl, hv, fun hbf => absurd hbf (by simp), fun _ => ⟨?_, ?_, ?_⟩⟩
      · intro a _
        rw [hm]
      · intro hgood
        rw [rangeValid_one, hv, hgood] at hrv
        exact absurd hrv (by simp)
      · intro _
        exact ⟨by rw [hm], by rw [hone]; rfl⟩

/-- `InputOrContinue` preserves the invariant when entered with no
breakpoint set — which is how the control loop always enters it, since a
pending breakpoint is restored at the trap stop before prompting. -/
theorem IOC_pres (t0 : Tracee) :
    ∀ (inputs : List String) (d : Debugger) (t : Tracee) (sub : Bool) (out : List Msg),
      d.interruptCode = [0xCC] → d.breakpointSet = false →
      t.valid = t0.valid → t.mem = t0.mem →
      IOCInv t0 (InputOrContinue d t sub inputs out) := by
  intro inputs
  induction inputs with
  | nil =>
    intro d t sub out _ _ _ _
    exact trivial
  | cons input rest ih =>
    intro d t sub out hI hbf hv hm
    unfold InputOrContinue
    by_cases hc : goToUpper input = "C"
    · rw [if_pos hc]
      exact sessInv_of_clean t0 d t hI hbf hv hm
    · rw [if_neg hc]
      by_cases hs : goToUpper input = "S"
      · rw [if_pos hs]
        exact sessInv_of_clean t0 d t hI hbf hv hm
      · rw [if_neg hs]
        by_cases hb : goToUpper input = "B"
        · rw [if_pos hb]
          exact ih d t true _ hI hbf hv hm
        · rw [if_neg hb]
          by_cases hq : goToUpper input = "Q"
          · rw [if_pos hq]
            exact trivial
          · rw [if_neg hq]
            cases sub with
            | true =>
              rw [if_pos rfl]
              exact setBreak_inv t0 { d with line := (goAtoi input).1 } t hI hv hm
            | false =>
              rw [if_neg (by simp)]
              exact ih d t false _ hI hbf hv hm

/-- A normally-finished `OutputStack` run changes no `Debugger` field other
than `fn` (the source writes `d.Fn` and nothing else of the struct). -/
theorem outputStack_fn_only (fuel : Nat) (d : Debugger) (t : Tracee) (ip sp bp : Nat)
    (d' : Debugger) (msgs : List Msg)
    (h : OutputStack fuel d t ip sp bp = some (.ok (d', msgs))) :
    d' = { d with fn := d'.fn } := by
  unfold OutputStack at h
  cases hl : outputStackLoop d.symTable t fuel ((d.symTable.pcToLine ip).2.2) sp bp 0 [] with
  | none =>
    rw [hl] at h
    exact absurd h (by simp)
  | some r =>
    rw [hl] at h
    cases r with
    | error e => exact absurd h (by simp)
    | ok p =>
      obtain ⟨fn1, m1⟩ := p
      simp only [Option.some.injEq, Except.ok.injEq, Prod.mk.injEq] at h
      rw [← h.1]

/-- `ReplaceCode` never changes which addresses are accessible. -/
theorem ReplaceCode_keeps_valid (t : Tracee) (a : Nat) (code : List Nat) :
    (ReplaceCode t a code).2.valid = t.valid := by
  cases hrv : rangeValid t a code.length with
  | true => rw [ReplaceCode_valid t a code hrv]
  | false => rw [ReplaceCode_invalid t a code hrv]

/-- Restoring the saved bytes at the breakpoint pc brings memory back to the
original image, both when the install had actually reached the address (the
trap byte is overwritten with the saved original byte) and when it had not
(the restore poke fails against the same inaccessible address and memory was
never changed). -/
theorem restore_mem (t0 : Tracee) (pcv : Nat) (orig : List Nat) (t : Tracee)
    (hv : t.valid = t0.valid)
    (hne : ∀ a, a ≠ pcv → t.mem a = t0.mem a)
    (hval : t0.valid pcv = true → t.mem pcv = 0xCC ∧ orig = [t0.mem pcv])
    (hinval : t0.valid pcv = false → t.mem pcv = t0.mem pcv ∧ orig = [0]) :
    (ReplaceCode t pcv orig).2.mem = t0.mem := by
  cases hva : t0.valid pcv with
  | true =>
    obtain ⟨hcc, hoc⟩ := hval hva
    rw [hoc]
    have hrv : rangeValid t pcv ([t0.mem pcv]).length = true := by
      rw [show ([t0.mem pcv]).length = 1 from rfl, rangeValid_one, hv, hva]
    rw [ReplaceCode_valid _ _ _ hrv]
    funext a
    dsimp only
    rw [pokeBytes_single]
    by_cases ha : a = pcv
    · rw [if_pos ha, ha]
    · rw [if_neg ha]
      exact hne a ha
  | false =>
    obtain ⟨hmem, hoc⟩ := hinval hva
    rw [hoc]
    have hrv : rangeValid t pcv (([0] : List Nat)).length = false := by
      rw [show (([0] : List Nat)).length = 1 from rfl, rangeValid_one, hv, hva]
    rw [ReplaceCode_invalid _ _ _ hrv]
    funext a
    by_cases ha : a = pcv
    · rw [ha]
      exact hmem
    · exact hne a ha

/-- The session invariant over the whole loop state. -/
def MemInv (t0 : Tracee) (s : LoopState) : Prop := sessInv t0 s.d s.t

/-- The trap-handling tail of a loop step (prompt then resume) preserves the
invariant, whatever the operator does. -/
theorem assemble_inv (t0 : Tracee) (d2 : Debugger) (t2 : Tracee) (out2 : List Msg)
    (inputs : List String) (lastR : Bool)
    (hI2 : d2.interruptCode = [0xCC]) (hb2 : d2.breakpointSet = false)
    (hv2 : t2.valid = t0.valid) (hm2 : t2.mem = t0.mem) :
    MemInv t0 (match InputOrContinue d2 t2 false inputs [Msg.prompt] with
      | .quit o => { d := d2, t := t2, phase := .quitted, lastResume := lastR, out := out2 ++ o }
      | .blocked o => { d := d2, t := t2, phase := .blockedOnInput, lastResume := lastR,
                        out := out2 ++ o }
      | .ret c d3 t3 o => { d := d3, t := t3, phase := .running, lastResume := c,
                            out := out2 ++ o }) := by
  have hioc := IOC_pres t0 inputs d2 t2 false [Msg.prompt] hI2 hb2 hv2 hm2
  cases hi : InputOrContinue d2 t2 false inputs [Msg.prompt] with
  | quit o => exact sessInv_of_clean t0 d2 t2 hI2 hb2 hv2 hm2
  | blocked o => exact sessInv_of_clean t0 d2 t2 hI2 hb2 hv2 hm2
  | ret c d3 t3 o =>
    rw [hi] at hioc
    exact hioc

/-- Every control-loop step preserves the session invariant. -/
theorem loopStep_pres (t0 : Tracee) (s : LoopState) (e : Event) (fuel : Nat)
    (hs : MemInv t0 s) : MemInv t0 (loopStep fuel s e) := by
  obtain ⟨hI, hv, hbf, hbt⟩ := hs
  unfold loopStep
  split
  · split
    · split
      · exact ⟨hI, hv, hbf, hbt⟩
      · exact ⟨hI, hv, hbf, hbt⟩
    · split
      · dsimp only
        split
        · exact ⟨hI, hv, hbf, hbt⟩
        · split
          · exact ⟨hI, hv, hbf, hbt⟩
          · exact ⟨hI, hv, hbf, hbt⟩
          · next d1 msgs hos =>
            have hd1 : d1 = { s.d with fn := d1.fn } :=
              outputStack_fn_only fuel s.d s.t e.regs.rip e.regs.rsp e.regs.rbp d1 msgs hos
            have hIC : d1.interruptCode = [0xCC] := by rw [hd1]; exact hI
            have hPC : d1.pc = s.d.pc := by rw [hd1]
            have hOC : d1.originalCode = s.d.originalCode := by rw [hd1]
            have hBS : d1.breakpointSet = s.d.breakpointSet := by rw [hd1]
            by_cases hb1 : d1.breakpointSet = true
            · rw [if_pos hb1]
              dsimp only
              obtain ⟨hne, hval, hinval⟩ := hbt (hBS ▸ hb1)
              refine assemble_inv t0 _ _ _ _ _ hIC rfl ?_ ?_
              · rw [ReplaceCode_keeps_valid]
                exact hv
              · rw [hPC, hOC]
                exact restore_mem t0 s.d.pc s.d.originalCode s.t hv hne hval hinval
            · rw [if_neg hb1]
              dsimp only
              have hb1f : d1.breakpointSet = false := by
                cases hx : d1.breakpointSet
                · rfl
                · exact absurd hx hb1
              refine assemble_inv t0 _ _ _ _ _ hIC hb1f hv ?_
              exact hbf (hBS.symm.trans hb1f)
      · exact ⟨hI, hv, hbf, hbt⟩
  · exact ⟨hI, hv, hbf, hbt⟩

/-- Every reachable session state satisfies the invariant. -/
theorem reachable_inv (st : SymTable) (t0 : Tracee) (s : LoopState)
    (h : Reachable st t0 s) : MemInv t0 s := by
  induction h with
  | init d inputs hrs =>
    have hd : d.interruptCode = [0xCC] ∧ d.breakpointSet = false := by
      unfold RunSetup at hrs
      cases hlf : st.lookupFunc "main.main" with
      | none =>
        rw [hlf] at hrs
        exact absurd hrs (by simp)
      | some f =>
        rw [hlf] at hrs
        simp only [Option.some.injEq] at hrs
        rw [← hrs]
        exact ⟨rfl, rfl⟩
    unfold startSession InputOrContinueRun
    have hioc := IOC_pres t0 inputs d t0 false [Msg.prompt] hd.1 hd.2 rfl rfl
    cases hi : InputOrContinue d t0 false inputs [Msg.prompt] with
    | quit o => exact sessInv_of_clean t0 d t0 hd.1 hd.2 rfl rfl
    | blocked o => exact sessInv_of_clean t0 d t0 hd.1 hd.2 rfl rfl
    | ret c d' t' o =>
      rw [hi] at hioc
      exact hioc
  | step s e fuel hr ih => exact loopStep_pres t0 s e fuel ih

/-! ### Concrete instances used by witnesses and counterexamples -/

/-- A symbol table resolving every pc to `main.main` at line 1 of `t.go` and
every line to address 100. -/
def st0 : SymTable :=
  { pcToLine := fun _ => ("t.go", 1, some ⟨"main.main", 64⟩)
    lineToPC := fun _ _ => some 100
    lookupFunc := fun _ => some ⟨"main.main", 64⟩ }

/-- A fully accessible tracee whose every byte is `0x90`. -/
def t0c : Tracee := { mem := fun _ => 0x90, valid := fun _ => true }

/-- The debugger state `Run` builds for `st0`. -/
def d0c : Debugger :=
  { targetFile := "t.go", line := 1, pc := 0, fn := some ⟨"main.main", 64⟩,
    symTable := st0, originalCode := [], breakpointSet := false, interruptCode := [0xCC] }

/-- The session state after the operator's first command sets a breakpoint
at line 7 (installed at address 100). -/
def stateC1 : LoopState := startSession d0c t0c ["B", "7"]

/-- A fully accessible, all-zero tracee. -/
def tZero : Tracee := { mem := fun _ => 0, valid := fun _ => true }

/-- A symbol table resolving every pc to `main.main` and no line to any
address. -/
def st2 : SymTable :=
  { pcToLine := fun _ => ("t.go", 3, some ⟨"main.main", 0⟩)
    lineToPC := fun _ _ => none
    lookupFunc := fun _ => none }

/-- A debugger whose current function sentinel is `g`. -/
def d2c : Debugger :=
  { targetFile := "t.go", line := 0, pc := 0, fn := some ⟨"g", 7⟩,
    symTable := st2, originalCode := [], breakpointSet := false, interruptCode := [0xCC] }

/-- Like `t0c` but with address 100 inaccessible to ptrace. -/
def t3c : Tracee := { mem := fun _ => 0x90, valid := fun a => a != 100 }

/-- A symbol table resolving every pc to a function `f` (never the
`main.main`/`runtime.main` sentinels) and no line to any address. -/
def st4 : SymTable :=
  { pcToLine := fun _ => ("", 0, some ⟨"f", 0⟩)
    lineToPC := fun _ _ => none
    lookupFunc := fun _ => none }

/-- A debugger over `st4`. -/
def d4c : Debugger :=
  { targetFile := "t.go", line := 0, pc := 0, fn := none, symTable := st4,
    originalCode := [], breakpointSet := false, interruptCode := [0xCC] }

/-! ### Claims -/

/-- Claim C1: at most one breakpoint is ever active at a time — in every
reachable session state the tracee's memory differs from the original
program image at no more than one address, so a second `SetBreak` never
leaves two trap instructions installed (the prior trap is always restored
at its trap stop, before the operator can be prompted again). -/
theorem single_trap_invariant (st : SymTable) (t0 : Tracee) (s : LoopState)
    (h : Reachable st t0 s) (a b : Nat)
    (ha : s.t.mem a ≠ t0.mem a) (hb : s.t.mem b ≠ t0.mem b) : a = b := by
  obtain ⟨hI, hv, hbf, hbt⟩ := reachable_inv st t0 s h
  cases hf : s.d.breakpointSet with
  | false => exact absurd (congrFun (hbf hf) a) ha
  | true =>
    obtain ⟨hne, _, _⟩ := hbt hf
    by_cases hax : a = s.d.pc
    · by_cases hbx : b = s.d.pc
      · rw [hax, hbx]
      · exact absurd (hne b hbx) hb
    · exact absurd (hne a hax) ha

theorem single_trap_invariant_witness :
    stateC1.t.mem 100 ≠ t0c.mem 100 ∧ (100 : Nat) = 100 :=
  ⟨by decide,
   single_trap_invariant st0 t0c stateC1 (Reachable.init d0c ["B", "7"] rfl) 100 100
     (by decide) (by decide)⟩

/-- `InputOrContinue` on the single input `C` immediately returns the
continue verdict without touching anything. -/
theorem IOC_continue (d : Debugger) (t : Tracee) (sub : Bool) (out : List Msg) :
    InputOrContinue d t sub ["C"] out = .ret true d t out := by
  unfold InputOrContinue
  rw [if_pos (show goToUpper "C" = "C" from rfl)]

/-- Claim C6: breakpoints are single-shot — at a genuine trap stop of a
reachable state with an active breakpoint, when the stack walk completes and
the operator answers `C`, the step clears the active flag, restores the
original bytes (memory is again exactly the program image, so reaching the
same address again cannot re-trap), and resumes with continue. -/
theorem breakpoint_single_shot (st : SymTable) (t0 : Tracee) (s : LoopState)
    (hr : Reachable st t0 s) (hph : s.phase = .running) (hbp : s.d.breakpointSet = true)
    (cause : Int) (hc : cause ≠ PTRACE_EVENT_CLONE) (regs : Regs) (fuel : Nat)
    (hfn : ((s.d.symTable.pcToLine regs.rip).2.2).isSome = true)
    (hwalk : walkOk (OutputStack fuel s.d s.t regs.rip regs.rsp regs.rbp) = true) :
    (loopStep fuel s ⟨.stopped SIGTRAP cause, regs, ["C"]⟩).d.breakpointSet = false ∧
    (loopStep fuel s ⟨.stopped SIGTRAP cause, regs, ["C"]⟩).t.mem = t0.mem ∧
    (loopStep fuel s ⟨.stopped SIGTRAP cause, regs, ["C"]⟩).lastResume = true ∧
    (loopStep fuel s ⟨.stopped SIGTRAP cause, regs, ["C"]⟩).phase = .running := by
  unfold loopStep
  rw [hph]
  dsimp only
  rw [if_pos ⟨rfl, hc⟩]
  cases hfq : (s.d.symTable.pcToLine regs.rip).2.2 with
  | none =>
    rw [hfq] at hfn
    exact absurd hfn (by simp)
  | some f =>
    dsimp only
    cases hos : OutputStack fuel s.d s.t regs.rip regs.rsp regs.rbp with
    | none =>
      rw [hos] at hwalk
      exact absurd hwalk (by simp [walkOk])
    | some r =>
      cases r with
      | error u =>
        rw [hos] at hwalk
        exact absurd hwalk (by simp [walkOk])
      | ok p =>
        obtain ⟨d1, msgs⟩ := p
        dsimp only
        have hd1 : d1 = { s.d with fn := d1.fn } :=
          outputStack_fn_only fuel s.d s.t regs.rip regs.rsp regs.rbp d1 msgs hos
        have hBS : d1.breakpointSet = true := by rw [hd1]; exact hbp
        rw [if_pos hBS]
        dsimp only
        rw [IOC_continue]
        refine ⟨rfl, ?_, rfl, rfl⟩
        obtain ⟨hI, hv, hbf, hbt⟩ := reachable_inv st t0 s hr
        obtain ⟨hne, hval, hinval⟩ := hbt hbp
        have hPC : d1.pc = s.d.pc := by rw [hd1]
        have hOC : d1.originalCode = s.d.originalCode := by rw [hd1]
        rw [hPC, hOC]
        exact restore_mem t0 s.d.pc s.d.originalCode s.t hv hne hval hinval

theorem breakpoint_single_shot_witness :
    stateC1.d.breakpointSet = true ∧
    ((loopStep 1 stateC1 ⟨.stopped SIGTRAP (-1), ⟨64, 0, 0⟩, ["C"]⟩).d.breakpointSet = false ∧
     (loopStep 1 stateC1 ⟨.stopped SIGTRAP (-1), ⟨64, 0, 0⟩, ["C"]⟩).t.mem = t0c.mem ∧
     (loopStep 1 stateC1 ⟨.stopped SIGTRAP (-1), ⟨64, 0, 0⟩, ["C"]⟩).lastResume = true ∧
     (loopStep 1 stateC1 ⟨.stopped SIGTRAP (-1), ⟨64, 0, 0⟩, ["C"]⟩).phase = .running) :=
  ⟨rfl,
   breakpoint_single_shot st0 t0c stateC1 (Reachable.init d0c ["B", "7"] rfl) rfl rfl
     (-1) (by decide) ⟨64, 0, 0⟩ 1 (by decide) (by decide)⟩

/-- Claim C8: a stop whose signal is not `SIGTRAP`, or whose trap cause is a
thread-creation notification, is never surfaced — the step leaves the whole
state unchanged except for resuming the tracee with continue: nothing is
printed, no registers are consumed, and no operator input is read. -/
theorem nongenuine_stop_silent (s : LoopState) (fuel : Nat) (sig : Nat) (cause : Int)
    (regs : Regs) (inputs : List String) (hph : s.phase = .running)
    (h : sig ≠ SIGTRAP ∨ cause = PTRACE_EVENT_CLONE) :
    loopStep fuel s ⟨.stopped sig cause, regs, inputs⟩ = { s with lastResume := true } := by
  unfold loopStep
  rw [hph]
  dsimp only
  rw [if_neg]
  rintro ⟨h1, h2⟩
  rcases h with hn | hc
  · exact hn h1
  · exact h2 hc

theorem nongenuine_stop_silent_witness :
    stateC1.phase = Phase.running ∧
    loopStep 0 stateC1 ⟨.stopped 17 (-1), ⟨0, 0, 0⟩, []⟩ = { stateC1 with lastResume := true } :=
  ⟨rfl, nongenuine_stop_silent stateC1 0 17 (-1) ⟨0, 0, 0⟩ [] rfl (Or.inl (by decide))⟩

/-- Claim C2 (counterexample): `OutputStack` is not purely observational —
on a concrete session it overwrites the `Fn` field of the `Debugger` struct
(`_, _, d.Fn = d.SymTable.PCToLine(ip)` and `d.Fn = nextfn` in the loop). -/
theorem outputStack_mutates_fn_cex :
    OutputStack 1 d2c tZero 0 0 0 =
      some (.ok ({ d2c with fn := some ⟨"main.main", 0⟩ },
        [Msg.strangeFrame 0 0, Msg.calledBy "main.main" 3, Msg.blank])) ∧
    d2c.fn ≠ some ⟨"main.main", 0⟩ :=
  ⟨rfl, by decide⟩

/-- Claim C2 (amended): a finished `OutputStack` call mutates no `Session`
field except `Fn` — the returned debugger equals the input with only `fn`
replaced (and the tracee is only peeked, never written, as the type of
`OutputStack` shows). -/
theorem outputStack_pure_except_fn (fuel : Nat) (d : Debugger) (t : Tracee)
    (ip sp bp : Nat) (d' : Debugger) (msgs : List Msg)
    (h : OutputStack fuel d t ip sp bp = some (.ok (d', msgs))) :
    d' = { d with fn := d'.fn } :=
  outputStack_fn_only fuel d t ip sp bp d' msgs h

theorem outputStack_pure_except_fn_witness :
    ({ d2c with fn := some ⟨"main.main", 0⟩ } : Debugger) =
      { d2c with fn := ({ d2c with fn := some (⟨"main.main", 0⟩ : GoFunc) } : Debugger).fn } :=
  outputStack_pure_except_fn 1 d2c tZero 0 0 0
    ({ d2c with fn := some ⟨"main.main", 0⟩ })
    [Msg.strangeFrame 0 0, Msg.calledBy "main.main" 3, Msg.blank] rfl

/-- Claim C3 (counterexample): a peek/poke failure in `ReplaceCode` is not
fatal — with address 100 inaccessible, both ptrace calls fail, yet the
breakpoint request completes: `SetBreak` reports success, the session
returns the continue verdict (no abort), and the zeroed buffer is kept as
the saved original bytes. -/
theorem replaceCode_ignores_trace_errors_cex :
    ptracePeekData t3c 100 1 = .error "peek" ∧
    ptracePokeData t3c 100 [0xCC] = .error "poke" ∧
    InputOrContinue d0c t3c false ["B", "5"] [Msg.prompt] =
      .ret true { d0c with line := 5, pc := 100, breakpointSet := true, originalCode := [0] }
        t3c [Msg.prompt, Msg.linePrompt "t.go"] :=
  ⟨rfl, rfl, rfl⟩

/-- Claim C3 (amended): peek failures in the stack walk are indeed fatal
(the iteration panics and the session aborts), but peek/poke failures in
`ReplaceCode` — breakpoint install and restore — are silently discarded:
the poke leaves memory unchanged and the peek yields the zero-initialized
buffer, and execution continues. -/
theorem trace_error_fatality_split :
    (∀ (st : SymTable) (t : Tracee) (fn : Option GoFunc) (sp bpv nb : Nat) (e : String),
      ptracePeekData t sp (frameAdjust sp bpv).1 = .error e →
      outputStackIter st t fn sp bpv nb = .panicked (frameAdjust sp bpv).2.2) ∧
    (∀ (t : Tracee) (a : Nat) (code : List Nat) (e : String),
      ptracePokeData t a code = .error e → (ReplaceCode t a code).2 = t) ∧
    (∀ (t : Tracee) (a : Nat) (code : List Nat) (e : String),
      ptracePeekData t a code.length = .error e →
      (ReplaceCode t a code).1 = List.replicate code.length 0) := by
  refine ⟨?_, ?_, ?_⟩
  · intro st t fn sp bpv nb e h
    unfold outputStackIter
    dsimp only
    rw [h]
  · intro t a code e h
    unfold ReplaceCode
    dsimp only
    rw [h]
  · intro t a code e h
    unfold ReplaceCode
    dsimp only
    rw [h]

theorem trace_error_fatality_split_witness :
    ptracePeekData t3c 100 (frameAdjust 100 0).1 = .error "peek" ∧
    outputStackIter st0 t3c none 100 0 0 = .panicked (frameAdjust 100 0).2.2 ∧
    (ReplaceCode t3c 100 [0xCC]).2 = t3c ∧
    (ReplaceCode t3c 100 [0xCC]).1 = List.replicate 1 0 :=
  ⟨rfl, trace_error_fatality_split.1 st0 t3c none 100 0 0 "peek" rfl,
   trace_error_fatality_split.2.1 t3c 100 [0xCC] "poke" rfl,
   trace_error_fatality_split.2.2 t3c 100 [0xCC] "peek" rfl⟩

/-- The `uint64` frame-size expression `bp - sp + 8` agrees with the
mathematical value `(bp - sp + 8) mod 2^64` computed over ℤ. -/
theorem frame_wrap_int (sp bpv : Nat) :
    add64 (sub64 bpv sp) 8 = (((bpv : Int) - (sp : Int) + 8) % (W : Int)).toNat := by
  simp only [add64, sub64, W_val]
  omega

/-- The `uint64` fallback recomputation `sp + frameSize - 8` (with
`frameSize = 32`) agrees with its value over ℤ. -/
theorem bp_recompute_int (sp : Nat) :
    sub64 (add64 sp 32) 8 = (((sp : Int) + 32 - 8) % (W : Int)).toNat := by
  simp only [add64, sub64, W_val]
  omega

/-- Claim C5: in each iteration of the stack walk (via `frameAdjust`, which
`outputStackIter` applies first), `frameSize` is computed as
`framePointer - stackPointer + wordSize` in `uint64` arithmetic, and exactly
when that value exceeds 1000 or `framePointer = 0` the walk substitutes
`frameSize = 32`, recomputes `framePointer = stackPointer + frameSize - 8`,
and prints the diagnostic carrying the observed `sp`/`bp` values; otherwise
both values are used unchanged and no diagnostic is printed. -/
theorem frame_sanity (sp bpv : Nat) (hsp : sp < W) (hbp : bpv < W) :
    ((1000 < ((bpv : Int) - (sp : Int) + 8) % (W : Int) ∨ bpv = 0) →
      frameAdjust sp bpv =
        (32, (((sp : Int) + 32 - 8) % (W : Int)).toNat, [Msg.strangeFrame sp bpv])) ∧
    (¬(1000 < ((bpv : Int) - (sp : Int) + 8) % (W : Int) ∨ bpv = 0) →
      frameAdjust sp bpv =
        ((((bpv : Int) - (sp : Int) + 8) % (W : Int)).toNat, bpv, [])) := by
  have hkey := frame_wrap_int sp bpv
  have hcond : (1000 < add64 (sub64 bpv sp) 8 ∨ bpv = 0) ↔
      (1000 < ((bpv : Int) - (sp : Int) + 8) % (W : Int) ∨ bpv = 0) := by
    constructor
    · rintro (h | h)
      · left
        rw [hkey] at h
        omega
      · exact Or.inr h
    · rintro (h | h)
      · left
        rw [hkey]
        omega
      · exact Or.inr h
  constructor
  · intro h
    unfold frameAdjust
    rw [if_pos (hcond.mpr h), bp_recompute_int]
  · intro h
    unfold frameAdjust
    rw [if_neg (fun hx => h (hcond.mp hx)), hkey]

theorem frame_sanity_witness :
    (0 : Nat) < W ∧
    (((1000 < ((0 : Int) - (0 : Int) + 8) % (W : Int) ∨ (0 : Nat) = 0) →
      frameAdjust 0 0 =
        (32, (((0 : Int) + 32 - 8) % (W : Int)).toNat, [Msg.strangeFrame 0 0])) ∧
    (¬(1000 < ((0 : Int) - (0 : Int) + 8) % (W : Int) ∨ (0 : Nat) = 0) →
      frameAdjust 0 0 =
        ((((0 : Int) - (0 : Int) + 8) % (W : Int)).toNat, 0, []))) :=
  ⟨by rw [W_val]; norm_num, frame_sanity 0 0 (by rw [W_val]; norm_num) (by rw [W_val]; norm_num)⟩

/-- Claim C9 (counterexample): the wrap-around of `bp - sp + 8` does not
make the fallback fire for *every* frame pointer below the stack pointer:
at `sp = 2^64 - 1`, `bp = 8` we have `sp > bp + 8`, yet the wrapped frame
size is 17 ≤ 1000 and `bp ≠ 0`, so the fallback is not taken. -/
theorem wrap_fallback_cex :
    (8 : Nat) + 8 < W - 1 ∧ frameAdjust (W - 1) 8 = (17, 8, []) := by
  constructor
  · rw [W_val]
    norm_num
  · decide

/-- Claim C9 (amended): the sanity check is computed in `uint64` arithmetic,
and for every pair with `sp > bp + 8` whose gap `sp - bp` stays below
`2^64 - 992`, the subtraction wraps to a value above 1000 and the 32-byte
fallback fires; only the extreme wrapped gaps (`sp - bp ≥ 2^64 - 992`) land
back at or under 1000 and escape the fallback. -/
theorem wrap_fallback (sp bp : Nat) (hsp : sp < W) (hbp : bp < W)
    (h1 : bp + 8 < sp) (h2 : sp - bp < W - 992) :
    1000 < add64 (sub64 bp sp) 8 ∧
    frameAdjust sp bp = (32, sub64 (add64 sp 32) 8, [Msg.strangeFrame sp bp]) := by
  have hgt : 1000 < add64 (sub64 bp sp) 8 := by
    simp only [add64, sub64, W_val] at *
    omega
  refine ⟨hgt, ?_⟩
  unfold frameAdjust
  rw [if_pos (Or.inl hgt)]

theorem wrap_fallback_witness :
    (100 : Nat) + 8 < 2000 ∧ (2000 : Nat) - 100 < W - 992 ∧
    (1000 < add64 (sub64 100 2000) 8 ∧
     frameAdjust 2000 100 = (32, sub64 (add64 2000 32) 8, [Msg.strangeFrame 2000 100])) :=
  ⟨by norm_num, by rw [W_val]; norm_num,
   wrap_fallback 2000 100 (by rw [W_val]; norm_num) (by rw [W_val]; norm_num)
     (by norm_num) (by rw [W_val]; norm_num)⟩

/-- Claim C7 (counterexample): after a failed breakpoint resolution the
operator is *not* re-prompted — `InputOrContinue` returns the continue
verdict right after printing the failure diagnostic, so the only prompt in
the output is the one printed before the failure, and the process is
resumed. -/
theorem setBreak_failure_no_reprompt_cex :
    InputOrContinue d4c tZero false ["B", "10"] [Msg.prompt] =
      .ret true { d4c with line := 10, pc := 0, breakpointSet := false, originalCode := [] }
        tZero [Msg.prompt, Msg.linePrompt "t.go", Msg.cantFind "t.go" 10] ∧
    ([Msg.prompt, Msg.linePrompt "t.go", Msg.cantFind "t.go" 10].count Msg.prompt = 1) :=
  ⟨rfl, by decide⟩

/-- Claim C7 (amended): when the resolver cannot map the requested line,
`SetBreak` returns ok = false, the failure is reported (`cantFind` is the
only message printed — in particular no prompt), no tracee memory is
touched (the tracee is returned unchanged), and the session continues:
`InputOrContinue` returns the continue verdict, so the operator is
re-prompted only at the next stop, not immediately. -/
theorem setBreak_failure_recoverable (d : Debugger) (t : Tracee) (input : String)
    (rest : List String) (out : List Msg)
    (h1 : goToUpper input ≠ "C") (h2 : goToUpper input ≠ "S")
    (h3 : goToUpper input ≠ "B") (h4 : goToUpper input ≠ "Q")
    (h5 : d.symTable.lineToPC d.targetFile (goAtoi input).1 = none) :
    InputOrContinue d t true (input :: rest) out =
      .ret true
        { d with
          line := (goAtoi input).1
          pc := 0
          breakpointSet := false
          originalCode := [] } t
        (out ++ [Msg.cantFind d.targetFile (goAtoi input).1]) := by
  rw [IOC_default_sub d t input rest out h1 h2 h3 h4,
    SetBreak_none { d with line := (goAtoi input).1 } t h5]

theorem setBreak_failure_recoverable_witness :
    goToUpper "12" ≠ "C" ∧
    d4c.symTable.lineToPC d4c.targetFile (goAtoi "12").1 = none ∧
    InputOrContinue d4c tZero true ["12"] [Msg.prompt] =
      .ret true
        { d4c with
          line := (goAtoi "12").1
          pc := 0
          breakpointSet := false
          originalCode := [] } tZero
        ([Msg.prompt] ++ [Msg.cantFind d4c.targetFile (goAtoi "12").1]) :=
  ⟨by decide, rfl,
   setBreak_failure_recoverable d4c tZero "12" [] [Msg.prompt]
     (by decide) (by decide) (by decide) (by decide) rfl⟩

/-- Claim C10: after a `B` command, a non-numeric entry is silently turned
into line 0 — the `Atoi` error is discarded, a breakpoint install at line 0
is attempted via `SetBreak`, the call returns the continue verdict, and the
malformed entry is never reported as invalid input. -/
theorem malformed_line_becomes_zero (d : Debugger) (t : Tracee) (input : String)
    (rest : List String) (out : List Msg)
    (h1 : goToUpper input ≠ "C") (h2 : goToUpper input ≠ "S")
    (h3 : goToUpper input ≠ "B") (h4 : goToUpper input ≠ "Q")
    (h5 : isIntSyntax input = false) :
    InputOrContinue d t true (input :: rest) out =
      .ret true { (SetBreak { d with line := 0 } t).d with
                  breakpointSet := (SetBreak { d with line := 0 } t).ok
                  originalCode := (SetBreak { d with line := 0 } t).saved }
        (SetBreak { d with line := 0 } t).t
        (out ++ (SetBreak { d with line := 0 } t).msgs) ∧
    (SetBreak { d with line := 0 } t).d.line = 0 ∧
    Msg.unexpectedInput input ∉ (SetBreak { d with line := 0 } t).msgs := by
  have hz : (goAtoi input).1 = 0 := by
    unfold goAtoi
    rw [if_neg (by simp [h5])]
  refine ⟨?_, ?_, ?_⟩
  · rw [IOC_default_sub d t input rest out h1 h2 h3 h4, hz]
  · cases hlp : d.symTable.lineToPC d.targetFile (0 : Int) with
    | none => rw [SetBreak_none _ _ hlp]
    | some pc => rw [SetBreak_some _ _ pc hlp]
  · cases hlp : d.symTable.lineToPC d.targetFile (0 : Int) with
    | none =>
      rw [SetBreak_none _ _ hlp]
      simp
    | some pc =>
      rw [SetBreak_some _ _ pc hlp]
      simp

theorem malformed_line_becomes_zero_witness :
    isIntSyntax "abc" = false ∧
    (InputOrContinue d4c tZero true ["abc"] [Msg.prompt] =
      .ret true { (SetBreak { d4c with line := 0 } tZero).d with
                  breakpointSet := (SetBreak { d4c with line := 0 } tZero).ok
                  originalCode := (SetBreak { d4c with line := 0 } tZero).saved }
        (SetBreak { d4c with line := 0 } tZero).t
        ([Msg.prompt] ++ (SetBreak { d4c with line := 0 } tZero).msgs) ∧
    (SetBreak { d4c with line := 0 } tZero).d.line = 0 ∧
    Msg.unexpectedInput "abc" ∉ (SetBreak { d4c with line := 0 } tZero).msgs) :=
  ⟨by decide,
   malformed_line_becomes_zero d4c tZero "abc" [] [Msg.prompt]
     (by decide) (by decide) (by decide) (by decide) (by decide)⟩

/-! ### The stack walk on a corrupted frame pointer (claim C4) -/

theorem scanLoopF_step (sp bpv : Nat) (b : List Nat) (fuel i nextbp : Nat) (h : fuel ≠ 0) :
    scanLoopF sp bpv b fuel i nextbp =
      if add64 sp i ≤ bpv then
        if i + 8 ≤ b.length then
          scanLoopF sp bpv b (fuel - 1) (i + 8)
            (if add64 sp i = bpv then le64 b i else nextbp)
        else none
      else some (i, nextbp) := by
  cases fuel with
  | zero => exact absurd rfl h
  | succ n => rfl

theorem outputStackLoop_succ (st : SymTable) (t : Tracee) (m : Nat) (fn : Option GoFunc)
    (sp bpv nb : Nat) (acc : List Msg) :
    outputStackLoop st t (m + 1) fn sp bpv nb acc =
      match outputStackIter st t fn sp bpv nb with
      | .panicked _ => some (.error ())
      | .broke fn1 msgs => some (.ok (fn1, acc ++ msgs))
      | .next fn1 sp1 bpv1 nb1 msgs => outputStackLoop st t m fn1 sp1 bpv1 nb1 (acc ++ msgs) :=
  rfl

theorem peekBytes_zero (a n : Nat) : peekBytes (fun _ => 0) a n = List.replicate n 0 := by
  unfold peekBytes
  induction n with
  | zero => rfl
  | succ m ih =>
    rw [List.range_succ, List.map_append, ih, List.replicate_succ']
    rfl

theorem rangeValid_tZero (a n : Nat) : rangeValid tZero a n = true := by
  simp [rangeValid, tZero]

theorem peek_tZero (a n : Nat) : ptracePeekData tZero a n = .ok (List.replicate n 0) := by
  unfold ptracePeekData
  rw [if_pos (rangeValid_tZero a n)]
  rw [show tZero.mem = (fun _ => 0) from rfl, peekBytes_zero]

theorem getD_replicate_zero (n i : Nat) : (List.replicate n (0 : Nat)).getD i 0 = 0 := by
  induction n generalizing i with
  | zero => rfl
  | succ m ih =>
    cases i with
    | zero => rfl
    | succ j => exact ih j

theorem le64_replicate_zero (n i : Nat) : le64 (List.replicate n 0) i = 0 := by
  simp [le64, show List.range 8 = [0, 1, 2, 3, 4, 5, 6, 7] from rfl, getD_replicate_zero]

/-- The inner scan over the 32-byte fallback frame of an all-zero stack:
exits at `i = 32` having read a zero next-base-pointer. -/
theorem scan32 (sp : Nat) (hlt : sp + 32 < W) :
    scanLoop sp (sp + 24) (List.replicate 32 0) 0 = some (32, 0) := by
  have h8 : add64 sp 8 = sp + 8 := add64_eq_of_lt (by omega)
  have h16 : add64 sp 16 = sp + 16 := add64_eq_of_lt (by omega)
  have h24 : add64 sp 24 = sp + 24 := add64_eq_of_lt (by omega)
  have h32 : add64 sp 32 = sp + 32 := add64_eq_of_lt (by omega)
  have s1 : scanLoopF sp (sp + 24) (List.replicate 32 0) 33 8 0 =
      scanLoopF sp (sp + 24) (List.replicate 32 0) 32 16 0 := by
    rw [scanLoopF_step _ _ _ 33 8 0 (by norm_num), h8,
      if_pos (by omega : sp + 8 ≤ sp + 24),
      if_pos (by decide : 8 + 8 ≤ (List.replicate 32 (0 : Nat)).length),
      le64_replicate_zero, ite_self]
  have s2 : scanLoopF sp (sp + 24) (List.replicate 32 0) 32 16 0 =
      scanLoopF sp (sp + 24) (List.replicate 32 0) 31 24 0 := by
    rw [scanLoopF_step _ _ _ 32 16 0 (by norm_num), h16,
      if_pos (by omega : sp + 16 ≤ sp + 24),
      if_pos (by decide : 16 + 8 ≤ (List.replicate 32 (0 : Nat)).length),
      le64_replicate_zero, ite_self]
  have s3 : scanLoopF sp (sp + 24) (List.replicate 32 0) 31 24 0 =
      scanLoopF sp (sp + 24) (List.replicate 32 0) 30 32 0 := by
    rw [scanLoopF_step _ _ _ 31 24 0 (by norm_num), h24,
      if_pos (by omega : sp + 24 ≤ sp + 24),
      if_pos (by decide : 24 + 8 ≤ (List.replicate 32 (0 : Nat)).length),
      le64_replicate_zero, ite_self]
  have s4 : scanLoopF sp (sp + 24) (List.replicate 32 0) 30 32 0 = some (32, 0) := by
    rw [scanLoopF_step _ _ _ 30 32 0 (by norm_num), h32,
      if_neg (by omega : ¬(sp + 32 ≤ sp + 24))]
  have hL : (List.replicate (32 : Nat) (0 : Nat)).length + 1 = 33 := rfl
  unfold scanLoop
  rw [hL, s1, s2, s3, s4]

/-- One walk iteration of the divergent run, away from the `uint64` wrap:
the zero frame pointer triggers the fallback, the synthetic 32-byte frame of
zeros resolves to the non-sentinel function `f`, and the walk advances by 32
bytes with `bp = nextbp = 0` again. -/
theorem iter_sym (sp : Nat) (hlt : sp + 32 < W) :
    outputStackIter st4 tZero (some ⟨"f", 0⟩) sp 0 0 =
      .next (some ⟨"f", 0⟩) (sp + 32) 0 0 [Msg.strangeFrame sp 0, Msg.calledBy "f" 0] := by
  have hfa : frameAdjust sp 0 = (32, sp + 24, [Msg.strangeFrame sp 0]) := by
    unfold frameAdjust
    rw [if_pos (Or.inr rfl), add64_eq_of_lt hlt,
      sub64_eq_of_le (by omega) (by omega)]
    rw [show sp + 32 - 8 = sp + 24 from by omega]
  unfold outputStackIter
  rw [hfa]
  dsimp only
  rw [peek_tZero]
  dsimp only
  rw [if_pos (by decide : 8 ≤ (List.replicate 32 (0 : Nat)).length)]
  rw [le64_replicate_zero]
  dsimp only [st4]
  rw [scan32 sp hlt]
  dsimp only
  rw [if_neg (by decide : ¬("f" = "main.main" ∨ "f" = "runtime.main")),
    add64_eq_of_lt hlt]
  rfl

/-- The walk iteration of the divergent run at the wrap point `2^64 - 8`:
the recomputed `bp` wraps to 16, the scan still exits at `i = 32`, and the
walk continues at `sp = 24`. -/
theorem iter_wrap :
    outputStackIter st4 tZero (some ⟨"f", 0⟩) (W - 8) 0 0 =
      .next (some ⟨"f", 0⟩) 24 0 0 [Msg.strangeFrame (W - 8) 0, Msg.calledBy "f" 0] := by
  decide

/-- The divergent walk: starting from any `sp ≡ 24 (mod 32)` with bp = 0 on
the all-zero tracee, the loop never finishes, for any amount of fuel. -/
theorem d4_loop_diverges : ∀ (n sp : Nat) (acc : List Msg),
    sp % 32 = 24 → sp < W →
    outputStackLoop st4 tZero n (some ⟨"f", 0⟩) sp 0 0 acc = none := by
  intro n
  induction n with
  | zero =>
    intro sp acc _ _
    rfl
  | succ m ih =>
    intro sp acc hm hlt
    rw [outputStackLoop_succ]
    by_cases hcase : sp + 32 < W
    · rw [iter_sym sp hcase]
      exact ih (sp + 32) _ (by omega) (by omega)
    · have hsp : sp = W - 8 := by
        rw [W_val] at *
        omega
      subst hsp
      rw [iter_wrap]
      exact ih 24 _ (by norm_num) (by rw [W_val]; norm_num)

/-- Claim C4 (counterexample): with `framePointer = 0`, a memory image of
zeros and a resolver that never yields the `main.main`/`runtime.main`
sentinel, the stack walk never terminates — the fallback fires every
iteration but only re-synthesizes another 32-byte frame, forever. -/
theorem stackWalk_diverges_cex :
    ¬ ∃ (n : Nat) (r : Except Unit (Debugger × List Msg)),
      OutputStack n d4c tZero 0 24 0 = some r := by
  rintro ⟨n, r, h⟩
  unfold OutputStack at h
  rw [show d4c.symTable = st4 from rfl,
    show (st4.pcToLine 0).2.2 = some ⟨"f", 0⟩ from rfl,
    d4_loop_diverges n 24 [] (by norm_num) (by rw [W_val]; norm_num)] at h
  exact absurd h (by simp)

/-- Claim C4 (amended): for every input with `framePointer = 0` the fallback
does trigger — the iteration's first printed line is the diagnostic with the
observed pointers — and the walk can terminate (it does, in one iteration,
when the sentinel is resolved immediately), but bounded termination is not
guaranteed for all memory/symbol-table contents. -/
theorem stackWalk_bp0_fallback :
    (∀ (st : SymTable) (t : Tracee) (fn : Option GoFunc) (sp nb : Nat),
      (iterMsgs (outputStackIter st t fn sp 0 nb)).head? = some (Msg.strangeFrame sp 0)) ∧
    walkOk (OutputStack 1 d2c tZero 0 0 0) = true := by
  constructor
  · intro st t fn sp nb
    unfold outputStackIter
    dsimp only
    rw [show frameAdjust sp 0 = (32, sub64 (add64 sp 32) 8, [Msg.strangeFrame sp 0]) from by
      unfold frameAdjust; rw [if_pos (Or.inr rfl)]]
    dsimp only
    repeat first | rfl | split
  · decide

theorem stackWalk_bp0_fallback_witness :
    (iterMsgs (outputStackIter st0 tZero none 5 0 0)).head? = some (Msg.strangeFrame 5 0) ∧
    walkOk (OutputStack 1 d2c tZero 0 0 0) = true :=
  ⟨stackWalk_bp0_fallback.1 st0 tZero none 5 0, stackWalk_bp0_fallback.2⟩

end Dedebugger
